import Mathlib

/-!
Shallow embedding of the core of the `bqs` repository:

* `internal/errors/errors.go` — error classification (`WrapBigQueryError`,
  `cleanErrorOutput`, `determineNotFoundMessage`, `GetRetryAfter`),
* `internal/retry` — the retry executor (`WithRetry`, `Config`,
  `DefaultConfig`, `QuickConfig`),
* `internal/cache` — the SQLite-backed TTL cache (`Get`, `Set`, `Exists`,
  `Delete`, `Clear`, `Cleanup`, `Stats`, key helpers),
* `internal/config` — the TTL constants,
* `internal/bigquery/client.go` — the fetch facade (`ListTables`,
  `GetSchema`, `GetTableMetadata`, `IsTableMetadataCached`).

Conventions of the embedding:

* Go strings are Lean `String`s; `strings.Contains` is infix search on the
  character list; `fmt.Sprintf` with only `%s` verbs is modelled by a small
  interpreter `sprintfS` (for the cache-key helpers, whose exact format is a
  claim) and by plain concatenation elsewhere.
* `time.Duration` values in the retry layer are `Int` nanoseconds; cache
  timestamps are `Int` Unix seconds (the Go cache stores `time.Now().Unix()`).
* The Go `float64` arithmetic in the backoff computation is modelled exactly
  over `ℚ` (all values involved — powers of 2 times nanosecond counts — are
  exactly representable in `float64` for the configured presets).
* Subprocess failures are `RawError`: either a generic text error or an
  `exec.ExitError` carrying its `Error()` text and captured stderr.
* The operation closure of the retry executor mutates captured variables in Go; it
  is modelled state-passing, `fn : Nat → σ → σ × Option GoErr`, where the
  `Nat` is the attempt number and `σ` the captured state.
* Context cancellation is modelled by an optional absolute model-time
  `cancelAfter` (in total elapsed wait time): the `select` in a wait of
  duration `d` starting at elapsed time `e` is won by `ctx.Done()` exactly
  when `cancelAfter < e + d`.
-/

namespace Bqs

/-! ### String helpers shared by the Go sources -/

/-- `strings.Contains s sub` — substring occurrence, as infix of the
character lists. -/
def goContains (s sub : String) : Bool :=
  decide (sub.data <:+: s.data)

/-- `strings.ToLower` (ASCII case mapping; every pattern the classifier
matches is ASCII). -/
def charLower (c : Char) : Char :=
  if 'A' ≤ c ∧ c ≤ 'Z' then Char.ofNat (c.toNat + 32) else c

/-- `strings.ToLower` on a string. -/
def goToLower (s : String) : String :=
  ⟨s.data.map charLower⟩

/-- The whitespace class of `strings.TrimSpace` (ASCII part of Unicode
White_Space). -/
def goIsSpace (c : Char) : Bool :=
  c = ' ' || c = '\t' || c = '\n' || c = '\r' || c = '\x0b' || c = '\x0c'

/-- `strings.TrimSpace`. -/
def goTrim (s : String) : String :=
  ⟨((s.data.dropWhile goIsSpace).reverse.dropWhile goIsSpace).reverse⟩

/-- `strings.HasPrefix`. -/
def goHasPrefixStr (s pre : String) : Bool :=
  pre.data.isPrefixOf s.data

/-- `strings.Split(s, "\n")`. -/
def splitLines : List Char → List (List Char)
  | [] => [[]]
  | c :: rest =>
    match splitLines rest with
    | [] => [[]]
    | l :: ls => if c = '\n' then [] :: l :: ls else (c :: l) :: ls

/-- A minimal model of `fmt.Sprintf` restricted to the `%s` verb, used by the
cache-key helpers (`TableListKey`, `SchemaKey`, `MetadataKey`).  Each `%s` in
the format consumes the next argument; other characters are copied.  (A `%s`
with no argument left is copied verbatim; the repository never does that.) -/
def sprintfSAux : List Char → List String → List Char
  | [], _ => []
  | [c], _ => [c]
  | c :: c2 :: rest, args =>
    if c = '%' ∧ c2 = 's' then
      match args with
      | a :: args2 => a.data ++ sprintfSAux rest args2
      | [] => c :: c2 :: sprintfSAux rest []
    else
      c :: sprintfSAux (c2 :: rest) args

/-- `fmt.Sprintf` with `%s` verbs only. -/
def sprintfS (format : String) (args : List String) : String :=
  ⟨sprintfSAux format.data args⟩

/-! ### `internal/errors/errors.go` -/

/-- `ErrorType` from `errors.go` (the spec calls `api` "ExternalToolFailure"). -/
inductive ErrorType where
  | network
  | auth
  | permission
  | notFound
  | quota
  | api
  | cache
  | validation
  | unknown
deriving DecidableEq, Repr

/-- A raw Go error entering `WrapBigQueryError`: either a generic error
(`text msg` with `Error() = msg`) or an `*exec.ExitError` (`Error()` is the
exit-status text such as "exit status 1"; `Stderr` is the captured stderr). -/
inductive RawError where
  | text (msg : String)
  | exit (msg : String) (stderr : String)
deriving DecidableEq, Repr

/-- `err.Error()`. -/
def RawError.errText : RawError → String
  | .text msg => msg
  | .exit msg _ => msg

/-- `isExitError` from `errors.go` (a direct type assertion to
`*exec.ExitError`). -/
def RawError.isExitError : RawError → Bool
  | .text _ => false
  | .exit _ _ => true

/-- `BQSError` from `errors.go`.  `retryAfter` is in nanoseconds
(`time.Duration`); `0` models the unset zero value. -/
structure BQSError where
  type : ErrorType
  message : String
  underlying : Option RawError
  retryable : Bool
  retryAfter : Int
  context : List (String × String)
deriving DecidableEq, Repr

/-- Nanoseconds per second (`time.Second`). -/
def nsPerSecond : Int := 1000000000

/-- `(*BQSError).GetRetryAfter` from `errors.go`. -/
def BQSError.getRetryAfter (e : BQSError) : Int :=
  if 0 < e.retryAfter then e.retryAfter
  else
    match e.type with
    | .network => 2 * nsPerSecond
    | .quota => 30 * nsPerSecond
    | .api => 5 * nsPerSecond
    | _ => 1 * nsPerSecond

/-- `cleanErrorOutput` from `errors.go`: trim, strip a leading "ERROR: ",
keep the first trimmed line that is nonempty and not WARNING-prefixed, else
the whole cleaned string. -/
def cleanErrorOutput (errorText : String) : String :=
  let cleaned := goTrim errorText
  let cleaned := if goHasPrefixStr cleaned "ERROR: " then ⟨cleaned.data.drop 7⟩ else cleaned
  let lines := (splitLines cleaned.data).map (fun l => goTrim ⟨l⟩)
  let cleanLines := lines.filter (fun l => !(l == "") && !(goHasPrefixStr l "WARNING"))
  match cleanLines with
  | l :: _ => l
  | [] => cleaned

/-- `determineNotFoundMessage` from `errors.go`. -/
def determineNotFoundMessage (operation project dataset table : String) : String :=
  if operation = "list_tables" then
    "Dataset " ++ project ++ "." ++ dataset ++ " not found or empty"
  else if operation = "get_metadata" ∨ operation = "get_schema" then
    if table ≠ "" then
      "Table " ++ project ++ "." ++ dataset ++ "." ++ table ++ " not found"
    else
      "Dataset " ++ project ++ "." ++ dataset ++ " not found"
  else
    if table ≠ "" then
      "Table " ++ project ++ "." ++ dataset ++ "." ++ table ++ " not found"
    else
      "Dataset " ++ project ++ "." ++ dataset ++ " not found"

/-- The context map built at the top of `WrapBigQueryError` (insertion
order; the iteration order of the Go map is irrelevant to the claims). -/
def wrapContext (operation project dataset table : String) : List (String × String) :=
  [("operation", operation), ("project", project), ("dataset", dataset)] ++
    (if table ≠ "" then [("table", table)] else [])

/-- `WrapBigQueryError` from `errors.go`.  The `switch` is an ordered,
first-match-wins chain of substring tests on the lower-cased `err.Error()`
text; only the `isExitError` case additionally inspects the captured stderr,
and only for "not found". -/
def wrapBigQueryError (err : RawError) (operation project dataset table : String) :
    BQSError :=
  let context := wrapContext operation project dataset table
  let errorText := err.errText
  let lowerError := goToLower errorText
  if goContains lowerError "not found" then
    ⟨.notFound, determineNotFoundMessage operation project dataset table,
      some err, false, 0, context⟩
  else if goContains lowerError "permission denied" || goContains lowerError "access denied" then
    ⟨.permission,
      "Access denied to " ++ project ++ "." ++ dataset ++ " - check BigQuery permissions",
      some err, false, 0, context⟩
  else if goContains lowerError "authentication" || goContains lowerError "credentials" then
    ⟨.auth,
      "Authentication failed - run \x27gcloud auth login\x27 or check service account credentials",
      some err, false, 0, context⟩
  else if goContains lowerError "quota" || goContains lowerError "rate limit" then
    ⟨.quota, "BigQuery quota exceeded - retrying with backoff",
      some err, true, 30 * nsPerSecond, context⟩
  else if goContains lowerError "timeout" || goContains lowerError "deadline" then
    ⟨.network, "BigQuery request timed out - retrying",
      some err, true, 5 * nsPerSecond, context⟩
  else if goContains lowerError "connection" || goContains lowerError "network" then
    ⟨.network, "Network error connecting to BigQuery - retrying",
      some err, true, 2 * nsPerSecond, context⟩
  else
    match err with
    | .exit _ stderr =>
      if goContains (goToLower stderr) "not found" then
        ⟨.notFound, determineNotFoundMessage operation project dataset table,
          some err, false, 0, context⟩
      else
        ⟨.api, "BigQuery command failed: " ++ cleanErrorOutput stderr,
          some err, true, 0, context⟩
    | .text _ =>
      ⟨.unknown, "BigQuery operation failed: " ++ cleanErrorOutput errorText,
        some err, true, 0, context⟩

/-! ### `internal/retry` -/

/-- `retry.Config`.  `maxAttempts` is a Go `int` (all in-repo configurations
are positive); delays are `time.Duration` nanoseconds; `multiplier` is the
`float64` multiplier modelled exactly over `ℚ`. -/
structure Config where
  maxAttempts : Nat
  baseDelay : Int
  maxDelay : Int
  multiplier : ℚ
deriving DecidableEq, Repr

/-- `retry.DefaultConfig()`: 3 attempts, 1s base, 30s cap, ×2. -/
def defaultConfig : Config :=
  ⟨3, 1 * nsPerSecond, 30 * nsPerSecond, 2⟩

/-- `retry.QuickConfig()`: 2 attempts, 500ms base, 5s cap, ×2. -/
def quickConfig : Config :=
  ⟨2, 500000000, 5 * nsPerSecond, 2⟩

/-- An error returned by the operation closure: either a `*errors.BQSError`
(recognised by the type assertion in `WithRetry`) or any other Go error,
carried as its `Error()` text. -/
inductive GoErr where
  | bqs (e : BQSError)
  | generic (msg : String)
deriving DecidableEq, Repr

/-- `pow` from `internal/retry` (`result := 1; result *= base`, `exp` times). -/
def powGo (base : ℚ) : Nat → ℚ
  | 0 => 1
  | n + 1 => powGo base n * base

/-- The exponential backoff delay of `WithRetry`:
`min(Duration(float64(baseDelay) * multiplier^(attempt-1)), maxDelay)`.
The `time.Duration(...)` conversion truncates toward zero (all repo values
are nonnegative, so `Rat.floor`). -/
def backoffDelay (cfg : Config) (attempt : Nat) : Int :=
  let delay : Int := Rat.floor ((cfg.baseDelay : ℚ) * powGo cfg.multiplier (attempt - 1))
  if delay > cfg.maxDelay then cfg.maxDelay else delay

/-- Outcome of the `select` during a cancellable wait of duration `d`
starting at total elapsed wait time `elapsed`: `(true, elapsed)` when
`ctx.Done()` wins (the wait is aborted where it began), otherwise
`(false, elapsed + d)` when the timer wins. -/
def waitStep (cancelAfter : Option Int) (elapsed d : Int) : Bool × Int :=
  match cancelAfter with
  | none => (false, elapsed + d)
  | some c => if c < elapsed + d then (true, elapsed) else (false, elapsed + d)

/-- How a `WithRetry` call ended: success, a returned error, or the
cancellation error `ctx.Err()`. -/
inductive RetryResult where
  | ok
  | err (e : GoErr)
  | cancelled
deriving DecidableEq, Repr

/-- The observable outcome of a `WithRetry` run: its result, the captured closure state, the number of closure invocations, and the total time spent
waiting between attempts (nanoseconds). -/
structure RetryReturn (σ : Type) where
  result : RetryResult
  state : σ
  invocations : Nat
  elapsed : Int
deriving DecidableEq, Repr

/-- The post-loop processing of `WithRetry`: append the attempt-count suffix
to the message of a `BQSError`, or wrap any other last error (the Go
`fmt.Errorf("%s failed after %d attempts: %w", ...)`; the `nil` case would
render the `%w` verb as `%!w(<nil>)`, reachable only with `maxAttempts < 1`). -/
def finalizeRetry (σ : Type) (cfg : Config) (operation : String) (lastErr : Option GoErr)
    (s : σ) (inv : Nat) (elapsed : Int) : RetryReturn σ :=
  match lastErr with
  | some (.bqs b) =>
    ⟨.err (.bqs { b with
        message := b.message ++ " (failed after " ++ toString cfg.maxAttempts ++ " attempts)" }),
      s, inv, elapsed⟩
  | some (.generic m) =>
    ⟨.err (.generic (operation ++ " failed after " ++ toString cfg.maxAttempts ++
        " attempts: " ++ m)), s, inv, elapsed⟩
  | none =>
    ⟨.err (.generic (operation ++ " failed after " ++ toString cfg.maxAttempts ++
        " attempts: %!w(<nil>)")), s, inv, elapsed⟩

/-- The `for attempt := 1; attempt <= MaxAttempts; attempt++` loop of
`WithRetry`.  `fuel` is only a structural-termination counter; `withRetry`
supplies `maxAttempts + 1`, which is exactly enough for the guard
`attempt > maxAttempts` to fire first, so the `fuel = 0` fallback (which
returns the same post-loop processing) is never reached. -/
def withRetryLoop {σ : Type} (cfg : Config) (operation : String)
    (fn : Nat → σ → σ × Option GoErr) (cancelAfter : Option Int) :
    Nat → Nat → σ → Nat → Int → Option GoErr → RetryReturn σ
  | 0, _, s, inv, elapsed, lastErr => finalizeRetry σ cfg operation lastErr s inv elapsed
  | fuel + 1, attempt, s, inv, elapsed, lastErr =>
    if attempt > cfg.maxAttempts then
      finalizeRetry σ cfg operation lastErr s inv elapsed
    else
      let s2 := (fn attempt s).1
      match (fn attempt s).2 with
      | none => ⟨.ok, s2, inv + 1, elapsed⟩
      | some e =>
        match e with
        | .bqs b =>
          if b.retryable = false then
            ⟨.err (.bqs b), s2, inv + 1, elapsed⟩
          else
            let retryAfter := b.getRetryAfter
            if 0 < retryAfter then
              if attempt < cfg.maxAttempts then
                match waitStep cancelAfter elapsed retryAfter with
                | (true, e2) => ⟨.cancelled, s2, inv + 1, e2⟩
                | (false, e2) =>
                  withRetryLoop cfg operation fn cancelAfter fuel (attempt + 1) s2
                    (inv + 1) e2 (some e)
              else
                withRetryLoop cfg operation fn cancelAfter fuel (attempt + 1) s2
                  (inv + 1) elapsed (some e)
            else
              -- fall through to the exponential-backoff section
              -- (unreachable: `GetRetryAfter` is always positive)
              if attempt ≥ cfg.maxAttempts then
                finalizeRetry σ cfg operation (some e) s2 (inv + 1) elapsed
              else
                match waitStep cancelAfter elapsed (backoffDelay cfg attempt) with
                | (true, e2) => ⟨.cancelled, s2, inv + 1, e2⟩
                | (false, e2) =>
                  withRetryLoop cfg operation fn cancelAfter fuel (attempt + 1) s2
                    (inv + 1) e2 (some e)
        | .generic _ =>
          if attempt ≥ cfg.maxAttempts then
            finalizeRetry σ cfg operation (some e) s2 (inv + 1) elapsed
          else
            match waitStep cancelAfter elapsed (backoffDelay cfg attempt) with
            | (true, e2) => ⟨.cancelled, s2, inv + 1, e2⟩
            | (false, e2) =>
              withRetryLoop cfg operation fn cancelAfter fuel (attempt + 1) s2
                (inv + 1) e2 (some e)

/-- `retry.WithRetry(ctx, config, operation, fn)`.  A `none` config selects
`DefaultConfig` as in the source. -/
def withRetry {σ : Type} (config : Option Config) (operation : String)
    (fn : Nat → σ → σ × Option GoErr) (cancelAfter : Option Int) (s0 : σ) :
    RetryReturn σ :=
  let cfg := config.getD defaultConfig
  withRetryLoop cfg operation fn cancelAfter (cfg.maxAttempts + 1) 1 s0 0 0 none

/-- `retry.WithQuickRetry`. -/
def withQuickRetry {σ : Type} (operation : String) (fn : Nat → σ → σ × Option GoErr)
    (cancelAfter : Option Int) (s0 : σ) : RetryReturn σ :=
  withRetry (some quickConfig) operation fn cancelAfter s0

/-- `retry.WithDefaultRetry`. -/
def withDefaultRetry {σ : Type} (operation : String) (fn : Nat → σ → σ × Option GoErr)
    (cancelAfter : Option Int) (s0 : σ) : RetryReturn σ :=
  withRetry (some defaultConfig) operation fn cancelAfter s0

/-! ### `internal/cache`

The SQLite table `metadata_cache(key PRIMARY KEY, data, created_at,
expires_at, etag)` is modelled as a list of rows with at most one row per
key (maintained by `set`, mirroring `INSERT OR REPLACE` on the primary key).
Timestamps are Unix seconds (`time.Now().Unix()`); `now` is an explicit
argument wherever the Go code calls `time.Now()`. -/

/-- One row of `metadata_cache`. -/
structure CacheRow where
  key : String
  data : String
  createdAt : Int
  expiresAt : Int
  etag : String
deriving DecidableEq, Repr

/-- `cache.CacheEntry` as returned by `Get` (`COALESCE(etag, '')` makes the
etag always a string). -/
structure CacheEntry where
  key : String
  data : String
  createdAt : Int
  expiresAt : Int
  etag : String
deriving DecidableEq, Repr

/-- `cache.Cache` (the `*sql.DB` handle is the row list; `defaultTTL` is in
seconds). -/
structure Cache where
  rows : List CacheRow
  defaultTTL : Int
deriving DecidableEq, Repr

/-- `cache.New(defaultTTL)`: fresh store, empty table. -/
def Cache.new (defaultTTL : Int) : Cache :=
  ⟨[], defaultTTL⟩

/-- The row filter of `Get`/`Exists`:
`WHERE key = ? AND expires_at > ?`. -/
def rowLive (key : String) (now : Int) (r : CacheRow) : Bool :=
  r.key == key && decide (now < r.expiresAt)

/-- `(*Cache).Get(key)`: the entry if a row matches `key` with
`expires_at > now`, otherwise `none` (= `ErrCacheMiss`, even when a stale
row for the key still physically exists). -/
def Cache.get (c : Cache) (key : String) (now : Int) : Option CacheEntry :=
  match c.rows.find? (rowLive key now) with
  | none => none
  | some r => some ⟨r.key, r.data, r.createdAt, r.expiresAt, r.etag⟩

/-- `(*Cache).Set(key, data, ttl, etag...)`: `INSERT OR REPLACE` with
`created_at = now` and `expires_at = now + ttl` (store default when `ttl`
is nil; empty etag when the variadic argument is absent). -/
def Cache.set (c : Cache) (key data : String) (ttl : Option Int) (etag : String)
    (now : Int) : Cache :=
  let cacheTTL := ttl.getD c.defaultTTL
  let expiresAt := now + cacheTTL
  { c with rows := ⟨key, data, now, expiresAt, etag⟩ ::
      c.rows.filter (fun r => !(r.key == key)) }

/-- `(*Cache).Delete(key)`: `DELETE ... WHERE key = ?` (idempotent). -/
def Cache.delete (c : Cache) (key : String) : Cache :=
  { c with rows := c.rows.filter (fun r => !(r.key == key)) }

/-- `(*Cache).Clear()`: `DELETE FROM metadata_cache`. -/
def Cache.clear (c : Cache) : Cache :=
  { c with rows := [] }

/-- `(*Cache).Cleanup()`: `DELETE ... WHERE expires_at <= ?` (the subsequent
`VACUUM` does not change the table contents). -/
def Cache.cleanup (c : Cache) (now : Int) : Cache :=
  { c with rows := c.rows.filter (fun r => decide (now < r.expiresAt)) }

/-- `(*Cache).Exists(key)`: the `Get` visibility condition without reading
the payload.  (The pure model has no database failures, so the `error`
result of the Go signature is always nil here.) -/
def Cache.existsKey (c : Cache) (key : String) (now : Int) : Bool :=
  (c.rows.find? (rowLive key now)).isSome

/-- `cache.CacheStats` (counts only; `SizeBytes` comes from the storage
pragmas `page_count * page_size`, outside the pure model). -/
structure CacheStats where
  totalEntries : Int
  validEntries : Int
  expiredEntries : Int
deriving DecidableEq, Repr

/-- `(*Cache).Stats()`: `COUNT(*)`, `COUNT(... WHERE expires_at <= ?)`, and
`ValidEntries = TotalEntries - ExpiredEntries`. -/
def Cache.stats (c : Cache) (now : Int) : CacheStats :=
  let total : Int := c.rows.length
  let expired : Int := (c.rows.filter (fun r => decide (r.expiresAt ≤ now))).length
  ⟨total, total - expired, expired⟩

/-- `cache.TableListKey(project, dataset)`. -/
def tableListKey (project dataset : String) : String :=
  sprintfS "tables:%s.%s" [project, dataset]

/-- `cache.SchemaKey(project, dataset, table)`. -/
def schemaKey (project dataset table : String) : String :=
  sprintfS "schema:%s.%s.%s" [project, dataset, table]

/-- `cache.MetadataKey(project, dataset, table)`. -/
def metadataKey (project dataset table : String) : String :=
  sprintfS "metadata:%s.%s.%s" [project, dataset, table]

/-- The cache states reachable from a fresh store by the operations the
claims quantify over (`Set`, `Delete`, `Cleanup`, `Clear`). -/
inductive Reachable : Cache → Prop
  | new (defaultTTL : Int) : Reachable (Cache.new defaultTTL)
  | set {c : Cache} (key data : String) (ttl : Option Int) (etag : String) (now : Int) :
      Reachable c → Reachable (c.set key data ttl etag now)
  | delete {c : Cache} (key : String) : Reachable c → Reachable (c.delete key)
  | cleanup {c : Cache} (now : Int) : Reachable c → Reachable (c.cleanup now)
  | clear {c : Cache} : Reachable c → Reachable c.clear

/-! ### `internal/config` (TTL constants, in seconds) -/

/-- `config.TableListTTL = 5 * time.Minute`. -/
def tableListTTL : Int := 300

/-- `config.MetadataTTL = 15 * time.Minute`. -/
def metadataTTL : Int := 900

/-- `config.SchemaTTL = 30 * time.Minute`. -/
def schemaTTL : Int := 1800

/-! ### `internal/bigquery/client.go`

The facade is parametrised by the external world it cannot compute:
the `bq` subprocess (`fetch`, indexed by invocation number, returning a
domain value or a raw error text — the fetch helpers wrap every failure in
`fmt.Errorf`, so the error reaching `WrapBigQueryError` is a plain text
error, never a bare `*exec.ExitError`), `json.Marshal` applied to the
captured result pointer (`marshal`, which may fail), `json.Unmarshal` of a
cached payload (`unmarshal`), and whether the SQLite `Set` fails
(`setFails`).  `α` stands for the result type of the operation
(`[]TableInfo`, `*Schema`, `*TableMetadata`). -/

structure ClientEnv (α : Type) where
  fetch : Nat → Except String α
  marshal : Option α → Option String
  unmarshal : String → Option α
  setFails : Bool

/-- The observable outcome of one facade call: the Go return value (the
result pointer/slice may be nil, hence `Option α`), the cache afterwards,
the number of external fetches performed, and the number of cache `Set`
calls issued. -/
structure ClientCall (α : Type) where
  result : Except GoErr (Option α)
  cache : Cache
  fetches : Nat
  writes : Nat

/-- The retry closure shared by the three fetch operations: run the fetch,
store the result in the captured variable (`nil` on failure, as the Go
multi-assignment does), and wrap failures via `WrapBigQueryError`. -/
def fetchClosure {α : Type} (env : ClientEnv α) (operation project dataset table : String) :
    Nat → Option α → Option α × Option GoErr :=
  fun n _ =>
    match env.fetch n with
    | .ok v => (some v, none)
    | .error msg =>
      (none, some (.bqs (wrapBigQueryError (.text msg) operation project dataset table)))

/-- The code shared by the three operations after a cache miss: the
retry-wrapped fetch, then marshal + `Set` with the TTL of the operation, where a
marshal or `Set` failure is only logged (`fmt.Printf("Warning: ...")`) and
the freshly fetched result is returned regardless. -/
def fetchThenCache {α : Type} (env : ClientEnv α) (c : Cache) (now : Int)
    (cfg : Config) (retryName wrapName : String) (cacheKey : String) (ttl : Int)
    (project dataset table : String) : ClientCall α :=
  let r := withRetry (some cfg) retryName (fetchClosure env wrapName project dataset table)
    none none
  match r.result with
  | .err e => ⟨.error e, c, r.invocations, 0⟩
  | .cancelled => ⟨.error (.generic "context canceled"), c, r.invocations, 0⟩
  | .ok =>
    match env.marshal r.state with
    | none => ⟨.ok r.state, c, r.invocations, 0⟩
    | some data =>
      if env.setFails then ⟨.ok r.state, c, r.invocations, 1⟩
      else ⟨.ok r.state, c.set cacheKey data (some ttl) "" now, r.invocations, 1⟩

/-- `(*Client).ListTables(project, dataset)`: cache probe under
`TableListKey`, then quick-retry fetch, then cache with the 5-minute TTL. -/
def listTables {α : Type} (env : ClientEnv α) (c : Cache) (now : Int)
    (project dataset : String) : ClientCall α :=
  let cacheKey := tableListKey project dataset
  let fetchPath := fetchThenCache env c now quickConfig "list tables" "list_tables"
    cacheKey tableListTTL project dataset ""
  match c.get cacheKey now with
  | some entry =>
    match env.unmarshal entry.data with
    | some v => ⟨.ok (some v), c, 0, 0⟩
    | none => fetchPath
  | none => fetchPath

/-- `(*Client).GetSchema(project, dataset, table)`: cache probe under
`SchemaKey`, then default-retry fetch, then cache with the 30-minute TTL. -/
def getSchema {α : Type} (env : ClientEnv α) (c : Cache) (now : Int)
    (project dataset table : String) : ClientCall α :=
  let cacheKey := schemaKey project dataset table
  let fetchPath := fetchThenCache env c now defaultConfig "get schema" "get_schema"
    cacheKey schemaTTL project dataset table
  match c.get cacheKey now with
  | some entry =>
    match env.unmarshal entry.data with
    | some v => ⟨.ok (some v), c, 0, 0⟩
    | none => fetchPath
  | none => fetchPath

/-- `(*Client).GetTableMetadata(project, dataset, table)`: cache probe under
`MetadataKey`, then default-retry fetch, then cache with the 15-minute TTL. -/
def getTableMetadata {α : Type} (env : ClientEnv α) (c : Cache) (now : Int)
    (project dataset table : String) : ClientCall α :=
  let cacheKey := metadataKey project dataset table
  let fetchPath := fetchThenCache env c now defaultConfig "get table metadata" "get_metadata"
    cacheKey metadataTTL project dataset table
  match c.get cacheKey now with
  | some entry =>
    match env.unmarshal entry.data with
    | some v => ⟨.ok (some v), c, 0, 0⟩
    | none => fetchPath
  | none => fetchPath

/-- `(*Client).IsTableMetadataCached(project, dataset, table)`, against an
arbitrary `cache.Service` whose `Exists` may fail (`Except` error = the Go
`error` return): any error yields `false`, otherwise the boolean is passed
through. -/
def isTableMetadataCached (existsFn : String → Except String Bool)
    (project dataset table : String) : Bool :=
  match existsFn (metadataKey project dataset table) with
  | .error _ => false
  | .ok b => b

/-- The `cache.Service.Exists` of the SQLite-backed store at a fixed
observation time (it never returns an error in the pure model). -/
def cacheServiceExists (c : Cache) (now : Int) : String → Except String Bool :=
  fun key => .ok (c.existsKey key now)

/-! ### Helper lemmas -/

lemma String.ext2 {s t : String} (h : s.data = t.data) : s = t := by
  cases s; cases t; exact congrArg String.mk h

lemma sprintfSAux_verb (rest : List Char) (a : String) (args : List String) :
    sprintfSAux ('%' :: 's' :: rest) (a :: args) = a.data ++ sprintfSAux rest args := by
  simp [sprintfSAux]

lemma sprintfSAux_copy (c c2 : Char) (rest : List Char) (args : List String)
    (h : ¬(c = '%' ∧ c2 = 's')) :
    sprintfSAux (c :: c2 :: rest) args = c :: sprintfSAux (c2 :: rest) args := by
  simp [sprintfSAux, h]

/-- `GetRetryAfter` is positive for every `BQSError` (either the explicit
positive `retryAfter` or a kind-dependent default of at least one second). -/
lemma getRetryAfter_pos (e : BQSError) : 0 < e.getRetryAfter := by
  unfold BQSError.getRetryAfter
  split
  · assumption
  · cases e.type <;> simp [nsPerSecond]

/-! ### C8 — cache-key formats -/

/-- C8: `TableListKey`, `SchemaKey` and `MetadataKey` produce exactly
`"tables:p.d"`, `"schema:p.d.t"` and `"metadata:p.d.t"`: the `fmt.Sprintf`
calls interpolate the identifier arguments verbatim into those literal
namespace formats. -/
theorem c8_key_formats (p d t : String) :
    tableListKey p d = "tables:" ++ p ++ "." ++ d ∧
    schemaKey p d t = "schema:" ++ p ++ "." ++ d ++ "." ++ t ∧
    metadataKey p d t = "metadata:" ++ p ++ "." ++ d ++ "." ++ t := by
  refine ⟨?_, ?_, ?_⟩
  · apply String.ext2
    show sprintfSAux ('t' :: 'a' :: 'b' :: 'l' :: 'e' :: 's' :: ':' :: '%' :: 's' :: '.' :: '%' :: 's' :: []) [p, d] = _
    rw [sprintfSAux_copy _ _ _ _ (by decide), sprintfSAux_copy _ _ _ _ (by decide),
      sprintfSAux_copy _ _ _ _ (by decide), sprintfSAux_copy _ _ _ _ (by decide),
      sprintfSAux_copy _ _ _ _ (by decide), sprintfSAux_copy _ _ _ _ (by decide),
      sprintfSAux_copy _ _ _ _ (by decide), sprintfSAux_verb,
      sprintfSAux_copy _ _ _ _ (by decide), sprintfSAux_verb]
    simp [String.data_append, sprintfSAux]
  · apply String.ext2
    show sprintfSAux ('s' :: 'c' :: 'h' :: 'e' :: 'm' :: 'a' :: ':' :: '%' :: 's' :: '.' :: '%' :: 's' :: '.' :: '%' :: 's' :: [])
      [p, d, t] = _
    rw [sprintfSAux_copy _ _ _ _ (by decide), sprintfSAux_copy _ _ _ _ (by decide),
      sprintfSAux_copy _ _ _ _ (by decide), sprintfSAux_copy _ _ _ _ (by decide),
      sprintfSAux_copy _ _ _ _ (by decide), sprintfSAux_copy _ _ _ _ (by decide),
      sprintfSAux_copy _ _ _ _ (by decide), sprintfSAux_verb,
      sprintfSAux_copy _ _ _ _ (by decide), sprintfSAux_verb,
      sprintfSAux_copy _ _ _ _ (by decide), sprintfSAux_verb]
    simp [String.data_append, sprintfSAux]
  · apply String.ext2
    show sprintfSAux
      ('m' :: 'e' :: 't' :: 'a' :: 'd' :: 'a' :: 't' :: 'a' :: ':' :: '%' :: 's' :: '.' :: '%' :: 's' :: '.' :: '%' :: 's' :: [])
      [p, d, t] = _
    rw [sprintfSAux_copy _ _ _ _ (by decide), sprintfSAux_copy _ _ _ _ (by decide),
      sprintfSAux_copy _ _ _ _ (by decide), sprintfSAux_copy _ _ _ _ (by decide),
      sprintfSAux_copy _ _ _ _ (by decide), sprintfSAux_copy _ _ _ _ (by decide),
      sprintfSAux_copy _ _ _ _ (by decide), sprintfSAux_copy _ _ _ _ (by decide),
      sprintfSAux_copy _ _ _ _ (by decide), sprintfSAux_verb,
      sprintfSAux_copy _ _ _ _ (by decide), sprintfSAux_verb,
      sprintfSAux_copy _ _ _ _ (by decide), sprintfSAux_verb]
    simp [String.data_append, sprintfSAux]

/-! ### C1 — exit errors with permission-denied stderr -/

/-- C1 counterexample: the claim is false on the code.  For the subprocess
exit error with `Error() = "exit status 1"` and captured stderr
`"ERROR: permission denied\n"`, `WrapBigQueryError` yields kind
API (ExternalToolFailure) with `retryable = true`, not kind Permission with
`retryable = false`: the permission-denied substring test inspects only
`err.Error()`, never the captured stderr. -/
theorem c1_counterexample :
    (wrapBigQueryError (.exit "exit status 1" "ERROR: permission denied\n")
        "get_metadata" "myproj" "mydata" "events").type = ErrorType.api ∧
    (wrapBigQueryError (.exit "exit status 1" "ERROR: permission denied\n")
        "get_metadata" "myproj" "mydata" "events").retryable = true ∧
    ¬ ((wrapBigQueryError (.exit "exit status 1" "ERROR: permission denied\n")
        "get_metadata" "myproj" "mydata" "events").type = ErrorType.permission ∧
      (wrapBigQueryError (.exit "exit status 1" "ERROR: permission denied\n")
        "get_metadata" "myproj" "mydata" "events").retryable = false) := by
  refine ⟨by decide, by decide, ?_⟩
  intro h
  have := h.1
  revert this
  decide

/-- C1 amended: a subprocess exit error whose `Error()` text matches none of
the substring branches is classified in the exit-error branch, which
re-checks stderr only for "not found"; with a stderr containing
"permission denied" (and not "not found") the result is kind API
(ExternalToolFailure), retryable, with message
`"BigQuery command failed: " ++ cleanErrorOutput stderr`. -/
theorem c1_exit_permission_stderr_is_api (msg stderr op p d t : String)
    (hmsg : (goContains (goToLower msg) "not found" ||
        goContains (goToLower msg) "permission denied" ||
        goContains (goToLower msg) "access denied" ||
        goContains (goToLower msg) "authentication" ||
        goContains (goToLower msg) "credentials" ||
        goContains (goToLower msg) "quota" ||
        goContains (goToLower msg) "rate limit" ||
        goContains (goToLower msg) "timeout" ||
        goContains (goToLower msg) "deadline" ||
        goContains (goToLower msg) "connection" ||
        goContains (goToLower msg) "network") = false)
    (hsd : goContains (goToLower stderr) "not found" = false)
    (hperm : goContains (goToLower stderr) "permission denied" = true) :
    wrapBigQueryError (.exit msg stderr) op p d t =
      ⟨.api, "BigQuery command failed: " ++ cleanErrorOutput stderr,
        some (.exit msg stderr), true, 0, wrapContext op p d t⟩ := by
  simp only [Bool.or_eq_false_iff] at hmsg
  obtain ⟨⟨⟨⟨⟨⟨⟨⟨⟨⟨h1, h2⟩, h3⟩, h4⟩, h5⟩, h6⟩, h7⟩, h8⟩, h9⟩, h10⟩, h11⟩ := hmsg
  simp [wrapBigQueryError, RawError.errText, h1, h2, h3, h4, h5, h6, h7, h8, h9, h10, h11, hsd]

/-- Witness for `c1_exit_permission_stderr_is_api` at the literal scenario input of the spec. -/
theorem c1_witness :
    ((goContains (goToLower "exit status 1") "not found" ||
        goContains (goToLower "exit status 1") "permission denied" ||
        goContains (goToLower "exit status 1") "access denied" ||
        goContains (goToLower "exit status 1") "authentication" ||
        goContains (goToLower "exit status 1") "credentials" ||
        goContains (goToLower "exit status 1") "quota" ||
        goContains (goToLower "exit status 1") "rate limit" ||
        goContains (goToLower "exit status 1") "timeout" ||
        goContains (goToLower "exit status 1") "deadline" ||
        goContains (goToLower "exit status 1") "connection" ||
        goContains (goToLower "exit status 1") "network") = false) ∧
    goContains (goToLower "ERROR: permission denied\n") "not found" = false ∧
    goContains (goToLower "ERROR: permission denied\n") "permission denied" = true ∧
    wrapBigQueryError (.exit "exit status 1" "ERROR: permission denied\n")
        "get_metadata" "myproj" "mydata" "events" =
      ⟨.api, "BigQuery command failed: " ++
          cleanErrorOutput "ERROR: permission denied\n",
        some (.exit "exit status 1" "ERROR: permission denied\n"), true, 0,
        wrapContext "get_metadata" "myproj" "mydata" "events"⟩ :=
  ⟨by decide, by decide, by decide,
    c1_exit_permission_stderr_is_api "exit status 1" "ERROR: permission denied\n"
      "get_metadata" "myproj" "mydata" "events" (by decide) (by decide) (by decide)⟩

/-! ### C10 — the cached-metadata probe -/

/-- C10: `IsTableMetadataCached` returns a plain boolean: it is `true`
exactly when the underlying `Exists` call returns `(true, nil)` for the
metadata key, any `Exists` error yields `false` (never propagated), and
against the SQLite-backed store it coincides with the key-present-and-
unexpired check. -/
theorem c10_is_cached_probe (existsFn : String → Except String Bool)
    (p d t emsg : String) (c : Cache) (now : Int) :
    (isTableMetadataCached existsFn p d t = true ↔
      existsFn (metadataKey p d t) = .ok true) ∧
    isTableMetadataCached (fun _ => .error emsg) p d t = false ∧
    isTableMetadataCached (cacheServiceExists c now) p d t =
      c.existsKey (metadataKey p d t) now := by
  refine ⟨?_, by simp [isTableMetadataCached], by simp [isTableMetadataCached, cacheServiceExists]⟩
  unfold isTableMetadataCached
  rcases h : existsFn (metadataKey p d t) with emsg2 | b
  · simp
  · cases b <;> simp

/-! ### C7 — the stats invariant -/

/-- C7: on every cache state reachable by `Set`/`Delete`/`Cleanup`/`Clear`
from a fresh store, `Stats` satisfies
`validEntries + expiredEntries = totalEntries` (as computed:
`ValidEntries = TotalEntries - ExpiredEntries`). -/
theorem c7_stats_invariant (c : Cache) (hc : Reachable c) (now : Int) :
    (c.stats now).validEntries + (c.stats now).expiredEntries =
      (c.stats now).totalEntries := by
  simp [Cache.stats]

/-- Witness for `c7_stats_invariant` on a concrete reachable state. -/
theorem c7_witness :
    Reachable ((Cache.new 900).set "metadata:p.d.t" "x" (some 900) "" 0) ∧
    ((((Cache.new 900).set "metadata:p.d.t" "x" (some 900) "" 0)).stats 5).validEntries +
        ((((Cache.new 900).set "metadata:p.d.t" "x" (some 900) "" 0)).stats 5).expiredEntries =
      ((((Cache.new 900).set "metadata:p.d.t" "x" (some 900) "" 0)).stats 5).totalEntries :=
  ⟨Reachable.set _ _ _ _ _ (Reachable.new 900),
    c7_stats_invariant _ (Reachable.set _ _ _ _ _ (Reachable.new 900)) 5⟩

/-! ### C4 — TTL expiration -/

/-- C4: after `Set` with TTL `d` at time `t0`, `Get` and `Exists` report the
entry present at every `t0 + d - ε` (`ε > 0`) and absent (`Get` a cache
miss, `Exists` false) at every `t0 + d + ε`, although the stale row still
physically exists in storage. -/
theorem c4_ttl_expiration (c : Cache) (key data etag : String) (ttl t0 ε : Int)
    (hε : 0 < ε) :
    (c.set key data (some ttl) etag t0).get key (t0 + ttl - ε) =
      some ⟨key, data, t0, t0 + ttl, etag⟩ ∧
    (c.set key data (some ttl) etag t0).existsKey key (t0 + ttl - ε) = true ∧
    (c.set key data (some ttl) etag t0).get key (t0 + ttl + ε) = none ∧
    (c.set key data (some ttl) etag t0).existsKey key (t0 + ttl + ε) = false ∧
    ∃ r ∈ (c.set key data (some ttl) etag t0).rows, r.key = key := by
  have hlive : rowLive key (t0 + ttl - ε) ⟨key, data, t0, t0 + ttl, etag⟩ = true := by
    simp [rowLive]; omega
  have hdead : rowLive key (t0 + ttl + ε) ⟨key, data, t0, t0 + ttl, etag⟩ = false := by
    simp [rowLive]; omega
  have hrows : (c.set key data (some ttl) etag t0).rows =
      ⟨key, data, t0, t0 + ttl, etag⟩ :: c.rows.filter (fun r => !(r.key == key)) := rfl
  have hfindNone : ((c.set key data (some ttl) etag t0).rows.find?
      (rowLive key (t0 + ttl + ε))) = none := by
    rw [hrows, List.find?_eq_none]
    intro r hr
    rcases List.mem_cons.mp hr with h | h
    · subst h; simp [hdead]
    · have hk := (List.mem_filter.mp h).2
      simp only [Bool.not_eq_true'] at hk
      simp [rowLive, hk]
  refine ⟨?_, ?_, ?_, ?_, ⟨⟨key, data, t0, t0 + ttl, etag⟩, by rw [hrows]; exact List.mem_cons_self _ _, rfl⟩⟩
  · rw [Cache.get, hrows, List.find?_cons_of_pos _ hlive]
  · rw [Cache.existsKey, hrows, List.find?_cons_of_pos _ hlive]; rfl
  · rw [Cache.get, hfindNone]
  · rw [Cache.existsKey, hfindNone]; rfl

/-- Witness for `c4_ttl_expiration` on a concrete entry. -/
theorem c4_witness :
    (0 : Int) < 1 ∧
    ((Cache.new 100).set "k" "v" (some 900) "" 1000).get "k" (1000 + 900 - 1) =
      some ⟨"k", "v", 1000, 1000 + 900, ""⟩ ∧
    ((Cache.new 100).set "k" "v" (some 900) "" 1000).existsKey "k" (1000 + 900 - 1) = true ∧
    ((Cache.new 100).set "k" "v" (some 900) "" 1000).get "k" (1000 + 900 + 1) = none ∧
    ((Cache.new 100).set "k" "v" (some 900) "" 1000).existsKey "k" (1000 + 900 + 1) = false ∧
    ∃ r ∈ ((Cache.new 100).set "k" "v" (some 900) "" 1000).rows, r.key = "k" :=
  ⟨by decide, c4_ttl_expiration (Cache.new 100) "k" "v" "" 900 1000 1 (by decide)⟩

/-! ### C2 — non-retryable errors end the retry loop at once -/

/-- C2: when the first invocation of the operation closure returns a
`BQSError` with `retryable = false`, `WithRetry` (for any configuration with
at least one attempt and any cancellation setting) invokes the closure
exactly once, returns that error unchanged, and spends no time waiting. -/
theorem c2_nonretryable_single_invocation {σ : Type} (cfg : Config) (op : String)
    (fn : Nat → σ → σ × Option GoErr) (ca : Option Int) (s0 : σ) (b : BQSError)
    (hmax : 1 ≤ cfg.maxAttempts) (hfn : (fn 1 s0).2 = some (.bqs b))
    (hb : b.retryable = false) :
    withRetry (some cfg) op fn ca s0 = ⟨.err (.bqs b), (fn 1 s0).1, 1, 0⟩ := by
  have hg : ¬ (1 > cfg.maxAttempts) := by omega
  unfold withRetry
  simp only [Option.getD_some]
  rw [withRetryLoop, if_neg hg]
  simp only [hfn, hb]
  rfl

/-- Witness for `c2_nonretryable_single_invocation` at a concrete
non-retryable error. -/
theorem c2_witness :
    1 ≤ defaultConfig.maxAttempts ∧
    ((fun (_ : Nat) (_ : Unit) =>
        ((), some (GoErr.bqs ⟨.permission, "denied", none, false, 0, []⟩))) 1 ()).2 =
      some (.bqs ⟨.permission, "denied", none, false, 0, []⟩) ∧
    (⟨.permission, "denied", none, false, 0, []⟩ : BQSError).retryable = false ∧
    withRetry (σ := Unit) (some defaultConfig) "op"
        (fun _ _ => ((), some (.bqs ⟨.permission, "denied", none, false, 0, []⟩))) none () =
      ⟨.err (.bqs ⟨.permission, "denied", none, false, 0, []⟩), (), 1, 0⟩ :=
  ⟨by decide, rfl, rfl,
    c2_nonretryable_single_invocation defaultConfig "op"
      (fun _ _ => ((), some (.bqs ⟨.permission, "denied", none, false, 0, []⟩))) none ()
      ⟨.permission, "denied", none, false, 0, []⟩ (by decide) rfl rfl⟩

/-! ### Retry-loop structure lemmas (shared by the retry claims) -/

/-- The post-loop processing always produces a returned error, never the
cancellation result. -/
lemma finalizeRetry_result_ne_cancelled (σ : Type) (cfg : Config) (op : String)
    (lastErr : Option GoErr) (s : σ) (inv : Nat) (elapsed : Int) :
    (finalizeRetry σ cfg op lastErr s inv elapsed).result ≠ .cancelled := by
  rcases lastErr with _ | e
  · simp [finalizeRetry]
  · rcases e with b | m <;> simp [finalizeRetry]

/-- The post-loop processing performs no further invocations. -/
lemma finalizeRetry_invocations (σ : Type) (cfg : Config) (op : String)
    (lastErr : Option GoErr) (s : σ) (inv : Nat) (elapsed : Int) :
    (finalizeRetry σ cfg op lastErr s inv elapsed).invocations = inv := by
  rcases lastErr with _ | e
  · simp [finalizeRetry]
  · rcases e with b | m <;> simp [finalizeRetry]

/-- The loop never decreases the invocation counter. -/
lemma withRetryLoop_invocations_le {σ : Type} (cfg : Config) (op : String)
    (fn : Nat → σ → σ × Option GoErr) (ca : Option Int) :
    ∀ (fuel attempt : Nat) (s : σ) (inv : Nat) (elapsed : Int) (lastErr : Option GoErr),
    inv ≤ (withRetryLoop cfg op fn ca fuel attempt s inv elapsed lastErr).invocations := by
  intro fuel
  induction fuel with
  | zero =>
    intro attempt s inv elapsed lastErr
    rw [withRetryLoop, finalizeRetry_invocations]
  | succ fuel ih =>
    intro attempt s inv elapsed lastErr
    rw [withRetryLoop]
    split
    · rw [finalizeRetry_invocations]
    · rcases hfn : (fn attempt s).2 with _ | e
      · simp only [hfn]; omega
      · rcases e with b | m
        · simp only [hfn]
          by_cases hr : b.retryable = false
          · rw [if_pos hr]; show inv ≤ inv + 1; omega
          · rw [if_neg hr, if_pos (getRetryAfter_pos b)]
            by_cases hlt : attempt < cfg.maxAttempts
            · rw [if_pos hlt]
              rcases hw : waitStep ca elapsed b.getRetryAfter with ⟨flag, e2⟩
              rcases flag
              · simp only []
                calc inv ≤ inv + 1 := by omega
                  _ ≤ _ := ih (attempt + 1) (fn attempt s).1 (inv + 1) e2 (some (.bqs b))
              · simp only []; omega
            · rw [if_neg hlt]
              calc inv ≤ inv + 1 := by omega
                _ ≤ _ := ih (attempt + 1) (fn attempt s).1 (inv + 1) elapsed (some (.bqs b))
        · simp only [hfn]
          by_cases hge : attempt ≥ cfg.maxAttempts
          · rw [if_pos hge, finalizeRetry_invocations]; omega
          · rw [if_neg hge]
            rcases hw : waitStep ca elapsed (backoffDelay cfg attempt) with ⟨flag, e2⟩
            rcases flag
            · simp only []
              calc inv ≤ inv + 1 := by omega
                _ ≤ _ := ih (attempt + 1) (fn attempt s).1 (inv + 1) e2 (some (.generic m))
            · simp only []; omega

/-- A loop entered with an attempt still to run performs at least one more
invocation. -/
lemma withRetryLoop_invocations_succ_le {σ : Type} (cfg : Config) (op : String)
    (fn : Nat → σ → σ × Option GoErr) (ca : Option Int)
    (fuel attempt : Nat) (s : σ) (inv : Nat) (elapsed : Int) (lastErr : Option GoErr)
    (hatt : attempt ≤ cfg.maxAttempts) (hfuel : 1 ≤ fuel) :
    inv + 1 ≤ (withRetryLoop cfg op fn ca fuel attempt s inv elapsed lastErr).invocations := by
  rcases fuel with _ | fuel
  · omega
  rw [withRetryLoop, if_neg (by omega)]
  rcases hfn : (fn attempt s).2 with _ | e
  · simp only [hfn]; omega
  · rcases e with b | m
    · simp only [hfn]
      by_cases hr : b.retryable = false
      · rw [if_pos hr]
      · rw [if_neg hr, if_pos (getRetryAfter_pos b)]
        by_cases hlt : attempt < cfg.maxAttempts
        · rw [if_pos hlt]
          rcases hw : waitStep ca elapsed b.getRetryAfter with ⟨flag, e2⟩
          rcases flag
          · exact withRetryLoop_invocations_le cfg op fn ca fuel (attempt + 1)
              (fn attempt s).1 (inv + 1) e2 (some (.bqs b))
          · exact le_rfl
        · rw [if_neg hlt]
          exact withRetryLoop_invocations_le cfg op fn ca fuel (attempt + 1)
            (fn attempt s).1 (inv + 1) elapsed (some (.bqs b))
    · simp only [hfn]
      by_cases hge : attempt ≥ cfg.maxAttempts
      · rw [if_pos hge, finalizeRetry_invocations]
      · rw [if_neg hge]
        rcases hw : waitStep ca elapsed (backoffDelay cfg attempt) with ⟨flag, e2⟩
        rcases flag
        · exact withRetryLoop_invocations_le cfg op fn ca fuel (attempt + 1)
            (fn attempt s).1 (inv + 1) e2 (some (.generic m))
        · exact le_rfl

/-- Cancellation core: if the loop run with a cancellation time returns the
cancellation result, the same loop without cancellation would have invoked
the operation strictly more often — the queued retry attempt is never
performed. -/
lemma withRetryLoop_cancel_lt {σ : Type} (cfg : Config) (op : String)
    (fn : Nat → σ → σ × Option GoErr) (c : Int) :
    ∀ (fuel attempt : Nat) (s : σ) (inv : Nat) (elapsed : Int) (lastErr : Option GoErr),
    attempt + fuel = cfg.maxAttempts + 2 →
    (withRetryLoop cfg op fn (some c) fuel attempt s inv elapsed lastErr).result = .cancelled →
    (withRetryLoop cfg op fn (some c) fuel attempt s inv elapsed lastErr).invocations <
      (withRetryLoop cfg op fn none fuel attempt s inv elapsed lastErr).invocations := by
  intro fuel
  induction fuel with
  | zero =>
    intro attempt s inv elapsed lastErr hinv hcan
    rw [withRetryLoop] at hcan
    exact absurd hcan (finalizeRetry_result_ne_cancelled σ cfg op lastErr s inv elapsed)
  | succ fuel ih =>
    intro attempt s inv elapsed lastErr hinv hcan
    by_cases hg : attempt > cfg.maxAttempts
    · rw [withRetryLoop, if_pos hg] at hcan
      exact absurd hcan (finalizeRetry_result_ne_cancelled σ cfg op lastErr s inv elapsed)
    · rw [withRetryLoop, if_neg hg] at hcan
      rw [withRetryLoop, if_neg hg]
      rw [withRetryLoop, if_neg hg]
      rcases hfn : (fn attempt s).2 with _ | e
      · simp only [hfn] at hcan
        simp at hcan
      · rcases e with b | m
        · by_cases hr : b.retryable = false
          · simp only [hfn] at hcan
            rw [if_pos hr] at hcan
            simp at hcan
          · simp only [hfn] at hcan ⊢
            rw [if_neg hr, if_pos (getRetryAfter_pos b)] at hcan
            rw [if_neg hr, if_pos (getRetryAfter_pos b)]
            rw [if_neg hr, if_pos (getRetryAfter_pos b)]
            by_cases hlt : attempt < cfg.maxAttempts
            · rw [if_pos hlt] at hcan
              rw [if_pos hlt, if_pos hlt]
              have hwn : waitStep none elapsed b.getRetryAfter =
                  (false, elapsed + b.getRetryAfter) := rfl
              rw [hwn]
              by_cases hcw : c < elapsed + b.getRetryAfter
              · have h1 : waitStep (some c) elapsed b.getRetryAfter = (true, elapsed) := by
                  simp [waitStep, hcw]
                rw [h1] at hcan ⊢
                show inv + 1 < _
                exact withRetryLoop_invocations_succ_le cfg op fn none fuel (attempt + 1)
                  (fn attempt s).1 (inv + 1) (elapsed + b.getRetryAfter) (some (.bqs b))
                  (by omega) (by omega)
              · have h1 : waitStep (some c) elapsed b.getRetryAfter =
                    (false, elapsed + b.getRetryAfter) := by
                  simp [waitStep, hcw]
                rw [h1] at hcan ⊢
                exact ih (attempt + 1) (fn attempt s).1 (inv + 1)
                  (elapsed + b.getRetryAfter) (some (.bqs b)) (by omega) hcan
            · rw [if_neg hlt] at hcan
              rw [if_neg hlt, if_neg hlt]
              exact ih (attempt + 1) (fn attempt s).1 (inv + 1) elapsed
                (some (.bqs b)) (by omega) hcan
        · simp only [hfn] at hcan ⊢
          by_cases hge : attempt ≥ cfg.maxAttempts
          · rw [if_pos hge] at hcan
            exact absurd hcan (finalizeRetry_result_ne_cancelled σ cfg op
              (some (.generic m)) (fn attempt s).1 (inv + 1) elapsed)
          · rw [if_neg hge] at hcan
            rw [if_neg hge, if_neg hge]
            have hwn : waitStep none elapsed (backoffDelay cfg attempt) =
                (false, elapsed + backoffDelay cfg attempt) := rfl
            rw [hwn]
            by_cases hcw : c < elapsed + backoffDelay cfg attempt
            · have h1 : waitStep (some c) elapsed (backoffDelay cfg attempt) =
                  (true, elapsed) := by
                simp [waitStep, hcw]
              rw [h1] at hcan ⊢
              show inv + 1 < _
              exact withRetryLoop_invocations_succ_le cfg op fn none fuel (attempt + 1)
                (fn attempt s).1 (inv + 1) (elapsed + backoffDelay cfg attempt)
                (some (.generic m)) (by omega) (by omega)
            · have h1 : waitStep (some c) elapsed (backoffDelay cfg attempt) =
                  (false, elapsed + backoffDelay cfg attempt) := by
                simp [waitStep, hcw]
              rw [h1] at hcan ⊢
              exact ih (attempt + 1) (fn attempt s).1 (inv + 1)
                (elapsed + backoffDelay cfg attempt) (some (.generic m)) (by omega) hcan

/-! ### C9 — cancellation during a backoff wait -/

/-- C9: if the cancellation of the caller fires while `WithRetry` is waiting
between attempts (the `.cancelled` result arises exactly from `ctx.Done()`
winning the `select` of a classified `retryAfter` wait or an
exponential-backoff wait), `WithRetry` returns the cancellation
error and never invokes the operation closure again: it performs strictly
fewer invocations than the same run without cancellation, so the queued
retry attempt never executes. -/
theorem c9_cancellation_during_wait {σ : Type} (cfg : Config) (op : String)
    (fn : Nat → σ → σ × Option GoErr) (c : Int) (s0 : σ)
    (hcan : (withRetry (some cfg) op fn (some c) s0).result = .cancelled) :
    (withRetry (some cfg) op fn (some c) s0).invocations <
      (withRetry (some cfg) op fn none s0).invocations := by
  unfold withRetry at hcan ⊢
  simp only [Option.getD_some] at hcan ⊢
  exact withRetryLoop_cancel_lt cfg op fn c (cfg.maxAttempts + 1) 1 s0 0 0 none
    (by omega) hcan

/-- Witness for `c9_cancellation_during_wait`: cancellation at 500ns during
the first 1000ns classified wait stops the run after one invocation, while
the uncancelled run performs three. -/
theorem c9_witness :
    (withRetry (σ := Unit) (some defaultConfig) "op"
        (fun _ _ => ((), some (.bqs ⟨.quota, "q", none, true, 1000, []⟩)))
        (some 500) ()).result = .cancelled ∧
    (withRetry (σ := Unit) (some defaultConfig) "op"
        (fun _ _ => ((), some (.bqs ⟨.quota, "q", none, true, 1000, []⟩)))
        (some 500) ()).invocations <
      (withRetry (σ := Unit) (some defaultConfig) "op"
        (fun _ _ => ((), some (.bqs ⟨.quota, "q", none, true, 1000, []⟩)))
        none ()).invocations :=
  ⟨by decide,
    c9_cancellation_during_wait defaultConfig "op"
      (fun _ _ => ((), some (.bqs ⟨.quota, "q", none, true, 1000, []⟩))) 500 ()
      (by decide)⟩

/-! ### C3 — retry exhaustion -/

/-- Exhaustion core: from any loop state whose pending last error is a
retryable `BQSError`, if every remaining invocation also fails with a
retryable `BQSError`, the loop performs exactly one invocation per remaining
attempt and ends in the post-loop message-suffix processing. -/
lemma withRetryLoop_allfail {σ : Type} (cfg : Config) (op : String)
    (fn : Nat → σ → σ × Option GoErr)
    (h : ∀ (n : Nat) (s : σ), ∃ b : BQSError,
      (fn n s).2 = some (.bqs b) ∧ b.retryable = true) :
    ∀ (fuel attempt : Nat) (s : σ) (inv : Nat) (elapsed : Int) (b0 : BQSError),
    attempt + fuel = cfg.maxAttempts + 2 → 1 ≤ fuel →
    ∃ (b : BQSError) (s2 : σ) (e2 : Int),
      withRetryLoop cfg op fn none fuel attempt s inv elapsed (some (.bqs b0)) =
        ⟨.err (.bqs { b with
            message := b.message ++ " (failed after " ++ toString cfg.maxAttempts ++ " attempts)" }),
          s2, inv + (fuel - 1), e2⟩ := by
  intro fuel
  induction fuel with
  | zero =>
    intro attempt s inv elapsed b0 hinv hfuel
    exact absurd hfuel (by decide)
  | succ fuel ih =>
    intro attempt s inv elapsed b0 hinv hfuel
    by_cases hg : attempt > cfg.maxAttempts
    · have hf0 : fuel = 0 := by omega
      subst hf0
      rw [withRetryLoop, if_pos hg]
      exact ⟨b0, s, elapsed, by simp [finalizeRetry]⟩
    · rw [withRetryLoop, if_neg hg]
      obtain ⟨b, hfn, hret⟩ := h attempt s
      simp only [hfn]
      rw [if_neg (by simp [hret]), if_pos (getRetryAfter_pos b)]
      by_cases hlt : attempt < cfg.maxAttempts
      · rw [if_pos hlt]
        have hwn : waitStep none elapsed b.getRetryAfter =
            (false, elapsed + b.getRetryAfter) := rfl
        rw [hwn]
        obtain ⟨b2, s2, e2, heq⟩ := ih (attempt + 1) (fn attempt s).1 (inv + 1)
          (elapsed + b.getRetryAfter) b (by omega) (by omega)
        have harith : (inv + 1) + (fuel - 1) = inv + (fuel + 1 - 1) := by omega
        rw [harith] at heq
        exact ⟨b2, s2, e2, heq⟩
      · rw [if_neg hlt]
        obtain ⟨b2, s2, e2, heq⟩ := ih (attempt + 1) (fn attempt s).1 (inv + 1)
          elapsed b (by omega) (by omega)
        have harith : (inv + 1) + (fuel - 1) = inv + (fuel + 1 - 1) := by omega
        rw [harith] at heq
        exact ⟨b2, s2, e2, heq⟩

/-- C3: when every invocation fails with a retryable `BQSError`, `WithRetry`
invokes the closure exactly `maxAttempts` times and returns a `BQSError`
whose message ends with `" (failed after {maxAttempts} attempts)"`. -/
theorem c3_retry_exhaustion {σ : Type} (cfg : Config) (op : String)
    (fn : Nat → σ → σ × Option GoErr) (s0 : σ)
    (hmax : 1 ≤ cfg.maxAttempts)
    (h : ∀ (n : Nat) (s : σ), ∃ b : BQSError,
      (fn n s).2 = some (.bqs b) ∧ b.retryable = true) :
    (withRetry (some cfg) op fn none s0).invocations = cfg.maxAttempts ∧
    ∃ b : BQSError, (withRetry (some cfg) op fn none s0).result = .err (.bqs b) ∧
      (" (failed after " ++ toString cfg.maxAttempts ++ " attempts)").data <:+
        b.message.data := by
  unfold withRetry
  simp only [Option.getD_some]
  rw [withRetryLoop, if_neg (by omega)]
  obtain ⟨b, hfn, hret⟩ := h 1 s0
  simp only [hfn]
  rw [if_neg (by simp [hret]), if_pos (getRetryAfter_pos b)]
  by_cases hlt : 1 < cfg.maxAttempts
  · rw [if_pos hlt]
    have hwn : waitStep none 0 b.getRetryAfter = (false, 0 + b.getRetryAfter) := rfl
    simp only [hwn]
    obtain ⟨b2, s2, e2, heq⟩ := withRetryLoop_allfail cfg op fn h cfg.maxAttempts (1 + 1)
      (fn 1 s0).1 (0 + 1) (0 + b.getRetryAfter) b (by omega) (by omega)
    rw [heq]
    refine ⟨by show (0 + 1) + (cfg.maxAttempts - 1) = cfg.maxAttempts; omega, ?_⟩
    exact ⟨_, rfl, ⟨b2.message.data, by simp [String.data_append, List.append_assoc]⟩⟩
  · rw [if_neg hlt]
    obtain ⟨b2, s2, e2, heq⟩ := withRetryLoop_allfail cfg op fn h cfg.maxAttempts (1 + 1)
      (fn 1 s0).1 (0 + 1) 0 b (by omega) (by omega)
    rw [heq]
    refine ⟨by show (0 + 1) + (cfg.maxAttempts - 1) = cfg.maxAttempts; omega, ?_⟩
    exact ⟨_, rfl, ⟨b2.message.data, by simp [String.data_append, List.append_assoc]⟩⟩

/-- Witness for `c3_retry_exhaustion` with the quick preset and a constantly
failing retryable operation. -/
theorem c3_witness :
    1 ≤ quickConfig.maxAttempts ∧
    ((withRetry (σ := Unit) (some quickConfig) "op"
        (fun _ _ => ((), some (.bqs ⟨.quota, "q", none, true, 1000, []⟩)))
        none ()).invocations = quickConfig.maxAttempts ∧
      ∃ b : BQSError,
        (withRetry (σ := Unit) (some quickConfig) "op"
          (fun _ _ => ((), some (.bqs ⟨.quota, "q", none, true, 1000, []⟩)))
          none ()).result = .err (.bqs b) ∧
        (" (failed after " ++ toString quickConfig.maxAttempts ++ " attempts)").data <:+
          b.message.data) :=
  ⟨by decide,
    c3_retry_exhaustion quickConfig "op"
      (fun _ _ => ((), some (.bqs ⟨.quota, "q", none, true, 1000, []⟩))) ()
      (by decide)
      (fun n s => ⟨⟨.quota, "q", none, true, 1000, []⟩, rfl, rfl⟩)⟩

/-! ### Facade lemmas (shared by C5 and C6) -/

/-- A first-attempt success returns immediately: one invocation, no waiting. -/
lemma withRetry_first_success {σ : Type} (cfg : Config) (op : String)
    (fn : Nat → σ → σ × Option GoErr) (ca : Option Int) (s0 : σ)
    (hmax : 1 ≤ cfg.maxAttempts) (hfn : (fn 1 s0).2 = none) :
    withRetry (some cfg) op fn ca s0 = ⟨.ok, (fn 1 s0).1, 1, 0⟩ := by
  unfold withRetry
  simp only [Option.getD_some]
  rw [withRetryLoop, if_neg (by omega)]
  simp only [hfn]

/-- When the first fetch succeeds and the subsequent marshal or `Set`
fails, the common fetch-then-cache path still returns the fetched value with
no error. -/
lemma fetchThenCache_write_failure {α : Type} (env : ClientEnv α) (c : Cache)
    (now : Int) (cfg : Config) (rn wn key : String) (ttl : Int)
    (p d t : String) (v : α)
    (hmax : 1 ≤ cfg.maxAttempts) (hf : env.fetch 1 = .ok v)
    (hfail : env.marshal (some v) = none ∨ env.setFails = true) :
    (fetchThenCache env c now cfg rn wn key ttl p d t).result = .ok (some v) := by
  have h1 : ((fetchClosure env wn p d t) 1 none).2 = none := by
    simp [fetchClosure, hf]
  have hw := withRetry_first_success cfg rn (fetchClosure env wn p d t) none none hmax h1
  have hstate : ((fetchClosure env wn p d t) 1 none).1 = some v := by
    simp [fetchClosure, hf]
  unfold fetchThenCache
  rw [hw]
  simp only [hstate]
  rcases hfail with hm2 | hs
  · rw [hm2]
  · rcases hm3 : env.marshal (some v) with _ | data
    · rfl
    · simp [hs]

/-- When the first fetch succeeds and marshal and `Set` both succeed, the
common fetch-then-cache path returns the fetched value, performs exactly one
fetch, and issues exactly one cache write storing the marshalled payload
with the operation TTL. -/
lemma fetchThenCache_success {α : Type} (env : ClientEnv α) (c : Cache)
    (now : Int) (cfg : Config) (rn wn key : String) (ttl : Int)
    (p d t : String) (v : α) (s : String)
    (hmax : 1 ≤ cfg.maxAttempts) (hf : env.fetch 1 = .ok v)
    (hm : env.marshal (some v) = some s) (hset : env.setFails = false) :
    fetchThenCache env c now cfg rn wn key ttl p d t =
      ⟨.ok (some v), c.set key s (some ttl) "" now, 1, 1⟩ := by
  have h1 : ((fetchClosure env wn p d t) 1 none).2 = none := by
    simp [fetchClosure, hf]
  have hw := withRetry_first_success cfg rn (fetchClosure env wn p d t) none none hmax h1
  have hstate : ((fetchClosure env wn p d t) 1 none).1 = some v := by
    simp [fetchClosure, hf]
  unfold fetchThenCache
  rw [hw]
  simp only [hstate]
  rw [hm, hset]
  simp

/-! ### C5 — cache-write failures never fail the operation -/

/-- C5: for each of `ListTables`, `GetSchema` and `GetTableMetadata`, when
the external fetch succeeds but the cache write fails (marshalling fails or
`Set` fails), the operation still returns the freshly fetched result with no
error — the failure is only logged. -/
theorem c5_cache_write_failure_not_fatal {α : Type} (env : ClientEnv α) (v : α)
    (c : Cache) (now : Int) (p d t : String)
    (hf : env.fetch 1 = .ok v)
    (hfail : env.marshal (some v) = none ∨ env.setFails = true)
    (hg1 : c.get (tableListKey p d) now = none)
    (hg2 : c.get (schemaKey p d t) now = none)
    (hg3 : c.get (metadataKey p d t) now = none) :
    (listTables env c now p d).result = .ok (some v) ∧
    (getSchema env c now p d t).result = .ok (some v) ∧
    (getTableMetadata env c now p d t).result = .ok (some v) := by
  refine ⟨?_, ?_, ?_⟩
  · simp only [listTables]
    rw [hg1]
    exact fetchThenCache_write_failure env c now quickConfig "list tables" "list_tables"
      (tableListKey p d) tableListTTL p d "" v (by decide) hf hfail
  · simp only [getSchema]
    rw [hg2]
    exact fetchThenCache_write_failure env c now defaultConfig "get schema" "get_schema"
      (schemaKey p d t) schemaTTL p d t v (by decide) hf hfail
  · simp only [getTableMetadata]
    rw [hg3]
    exact fetchThenCache_write_failure env c now defaultConfig "get table metadata"
      "get_metadata" (metadataKey p d t) metadataTTL p d t v (by decide) hf hfail

/-- Witness for `c5_cache_write_failure_not_fatal` with a marshaller that
always fails and a failing `Set`. -/
theorem c5_witness :
    ((⟨fun _ => .ok 7, fun _ => none, fun s2 => s2.toNat?, true⟩ :
        ClientEnv Nat).fetch 1 = .ok 7) ∧
    ((⟨fun _ => .ok 7, fun _ => none, fun s2 => s2.toNat?, true⟩ :
        ClientEnv Nat).marshal (some 7) = none ∨
      (⟨fun _ => .ok 7, fun _ => none, fun s2 => s2.toNat?, true⟩ :
        ClientEnv Nat).setFails = true) ∧
    (Cache.new 900).get (tableListKey "p" "d") 0 = none ∧
    (Cache.new 900).get (schemaKey "p" "d" "t") 0 = none ∧
    (Cache.new 900).get (metadataKey "p" "d" "t") 0 = none ∧
    ((listTables (⟨fun _ => .ok 7, fun _ => none, fun s2 => s2.toNat?, true⟩ :
        ClientEnv Nat) (Cache.new 900) 0 "p" "d").result = .ok (some 7) ∧
      (getSchema (⟨fun _ => .ok 7, fun _ => none, fun s2 => s2.toNat?, true⟩ :
        ClientEnv Nat) (Cache.new 900) 0 "p" "d" "t").result = .ok (some 7) ∧
      (getTableMetadata (⟨fun _ => .ok 7, fun _ => none, fun s2 => s2.toNat?, true⟩ :
        ClientEnv Nat) (Cache.new 900) 0 "p" "d" "t").result = .ok (some 7)) :=
  ⟨rfl, Or.inl rfl, rfl, rfl, rfl,
    c5_cache_write_failure_not_fatal
      (⟨fun _ => .ok 7, fun _ => none, fun s2 => s2.toNat?, true⟩ : ClientEnv Nat)
      7 (Cache.new 900) 0 "p" "d" "t" rfl (Or.inl rfl) rfl rfl rfl⟩

/-! ### C6 — cache-then-fetch orchestration -/

/-- C6: starting from an empty cache, the first `GetTableMetadata` call
performs exactly one external fetch and one cache write (storing the
marshalled payload under the metadata key with the 15-minute TTL); a second
call with the same arguments within the TTL performs zero fetches and zero
writes and returns the cached value. -/
theorem c6_cache_then_fetch {α : Type} (env : ClientEnv α) (m : α) (s : String)
    (p d t : String) (dttl t1 t2 : Int)
    (hf : env.fetch 1 = .ok m) (hm : env.marshal (some m) = some s)
    (hu : env.unmarshal s = some m) (hset : env.setFails = false)
    (httl : t2 < t1 + metadataTTL) :
    getTableMetadata env (Cache.new dttl) t1 p d t =
      ⟨.ok (some m), (Cache.new dttl).set (metadataKey p d t) s (some metadataTTL) "" t1,
        1, 1⟩ ∧
    getTableMetadata env
        ((Cache.new dttl).set (metadataKey p d t) s (some metadataTTL) "" t1) t2 p d t =
      ⟨.ok (some m), (Cache.new dttl).set (metadataKey p d t) s (some metadataTTL) "" t1,
        0, 0⟩ := by
  constructor
  · simp only [getTableMetadata]
    rw [show (Cache.new dttl).get (metadataKey p d t) t1 = none from rfl]
    exact fetchThenCache_success env (Cache.new dttl) t1 defaultConfig "get table metadata"
      "get_metadata" (metadataKey p d t) metadataTTL p d t m s (by decide) hf hm hset
  · have hlive : rowLive (metadataKey p d t) t2
        ⟨metadataKey p d t, s, t1, t1 + metadataTTL, ""⟩ = true := by
      simp [rowLive]
      omega
    have hrows : ((Cache.new dttl).set (metadataKey p d t) s (some metadataTTL) "" t1).rows =
        [⟨metadataKey p d t, s, t1, t1 + metadataTTL, ""⟩] := rfl
    have hget2 : ((Cache.new dttl).set (metadataKey p d t) s (some metadataTTL) "" t1).get
        (metadataKey p d t) t2 = some ⟨metadataKey p d t, s, t1, t1 + metadataTTL, ""⟩ := by
      simp only [Cache.get, hrows]
      rw [List.find?_cons_of_pos _ hlive]
    simp only [getTableMetadata, hget2, hu]

/-- Witness for `c6_cache_then_fetch` with a concrete codec. -/
theorem c6_witness :
    ((⟨fun _ => .ok 42, fun o => match o with | some n => some (toString n) | none => some "null",
        fun s2 => if s2 == "42" then some 42 else none, false⟩ :
      ClientEnv Nat).fetch 1 = .ok 42) ∧
    ((⟨fun _ => .ok 42, fun o => match o with | some n => some (toString n) | none => some "null",
        fun s2 => if s2 == "42" then some 42 else none, false⟩ :
      ClientEnv Nat).marshal (some 42) = some "42") ∧
    ((⟨fun _ => .ok 42, fun o => match o with | some n => some (toString n) | none => some "null",
        fun s2 => if s2 == "42" then some 42 else none, false⟩ :
      ClientEnv Nat).unmarshal "42" = some 42) ∧
    ((⟨fun _ => .ok 42, fun o => match o with | some n => some (toString n) | none => some "null",
        fun s2 => if s2 == "42" then some 42 else none, false⟩ :
      ClientEnv Nat).setFails = false) ∧
    ((10 : Int) < 0 + metadataTTL) ∧
    (getTableMetadata
        (⟨fun _ => .ok 42, fun o => match o with | some n => some (toString n) | none => some "null",
          fun s2 => if s2 == "42" then some 42 else none, false⟩ : ClientEnv Nat)
        (Cache.new 900) 0 "p" "d" "t" =
      ⟨.ok (some 42), (Cache.new 900).set (metadataKey "p" "d" "t") "42" (some metadataTTL) "" 0,
        1, 1⟩ ∧
      getTableMetadata
        (⟨fun _ => .ok 42, fun o => match o with | some n => some (toString n) | none => some "null",
          fun s2 => if s2 == "42" then some 42 else none, false⟩ : ClientEnv Nat)
        ((Cache.new 900).set (metadataKey "p" "d" "t") "42" (some metadataTTL) "" 0) 10 "p" "d" "t" =
      ⟨.ok (some 42), (Cache.new 900).set (metadataKey "p" "d" "t") "42" (some metadataTTL) "" 0,
        0, 0⟩) :=
  ⟨rfl, rfl, by decide, rfl, by decide,
    c6_cache_then_fetch
      (⟨fun _ => .ok 42, fun o => match o with | some n => some (toString n) | none => some "null",
        fun s2 => if s2 == "42" then some 42 else none, false⟩ : ClientEnv Nat)
      42 "42" "p" "d" "t" 900 0 10 rfl rfl (by decide) rfl (by decide)⟩

end Bqs
